import Mathlib

/-!
Shallow embedding of the darwin-rs population engine:
`src/dw_population.rs`, `src/dw_individual.rs`, `src/dw_config.rs`,
`src/dw_error.rs`.  Rust `f64` is modelled by an exact value domain
(`F64` below); machine integers (`u64`, `usize`, `u8`) are modelled by
`Nat` (the verified properties never reach the wrap-around range);
the `StdRng` random source is modelled by a stream of raw draws
(`Nat → Nat`); Rust panics and the potentially unbounded redraw loop
`random_index_new` are modelled with `Option` and fuel.
-/

/-- Model of Rust `f64` restricted to what the engine observes: NaN, the
two infinities, and exact finite values (as rationals — the engine only
copies and compares fitness values, so rounding never occurs). -/
inductive F64 where
  | nan : F64
  | neg_inf : F64
  | fin : ℚ → F64
  | pos_inf : F64
deriving DecidableEq

/-- IEEE-754 `<` on `f64`: every comparison involving NaN is false. -/
def F64.lt : F64 → F64 → Bool
  | .nan, _ => false
  | _, .nan => false
  | .neg_inf, .neg_inf => false
  | .neg_inf, _ => true
  | _, .neg_inf => false
  | .fin a, .fin b => decide (a < b)
  | .fin _, .pos_inf => true
  | .pos_inf, _ => false

/-- IEEE-754 `==` on `f64`: NaN is not equal to anything, itself included.
(The model has a single zero, so `-0.0 == 0.0` needs no special case.) -/
def F64.eqv : F64 → F64 → Bool
  | .nan, _ => false
  | _, .nan => false
  | a, b => decide (a = b)

/-- IEEE-754 `<=` on `f64`. -/
def F64.le (a b : F64) : Bool := F64.lt a b || F64.eqv a b

def F64.isNaN : F64 → Bool
  | .nan => true
  | _ => false

/-- The exact value of Rust `f64::MAX` = (2 - 2⁻⁵²)·2¹⁰²³. -/
def f64_MAX : F64 := F64.fin (2 ^ 1024 - 2 ^ 971)

/-- Model of `DWError` (src/dw_error.rs).  The three foreign payloads
(`NCError`, `io::Error`, `serde_json::Error`) are opaque to the engine and
modelled without payload. -/
inductive DWError where
  | NCError : DWError
  | IOError : DWError
  | JSONError : DWError
  | ParseDWMethodError : String → DWError
  | ConvertDWMutateMethodError : ℕ → DWError
  | ParseDWDeleteMethodError : String → DWError
  | ConvertDWDeleteMethodError : ℕ → DWError
deriving DecidableEq

/-- `DWDeleteMethod` (src/dw_population.rs lines 14-19). -/
inductive DWDeleteMethod where
  | SortKeep : DWDeleteMethod
  | SortUnique : DWDeleteMethod
  | RandomBest3 : DWDeleteMethod
deriving DecidableEq

/-- `impl FromStr for DWDeleteMethod` (src/dw_population.rs lines 21-40). -/
def DWDeleteMethod.from_str (s : String) : Except DWError DWDeleteMethod :=
  if s = "sort_keep" then .ok .SortKeep
  else if s = "sort_unique" then .ok .SortUnique
  else if s = "random_best3" then .ok .RandomBest3
  else .error (.ParseDWDeleteMethodError s)

/-- `impl TryFrom<u8> for DWDeleteMethod` (src/dw_population.rs lines 42-61). -/
def DWDeleteMethod.try_from (value : ℕ) : Except DWError DWDeleteMethod :=
  if value = 0 then .ok .SortKeep
  else if value = 1 then .ok .SortUnique
  else if value = 2 then .ok .RandomBest3
  else .error (.ConvertDWDeleteMethodError value)

/-- `impl Display for DWDeleteMethod` (src/dw_population.rs lines 63-77):
the code renders `"simple"`, `"only_best"`, `"low_mem"`. -/
def DWDeleteMethod.display : DWDeleteMethod → String
  | .SortKeep => "simple"
  | .SortUnique => "only_best"
  | .RandomBest3 => "low_mem"

/-- `DWMethod` / `DWMutateMethod`, the mutate-strategy tag referenced by
`DWConfiguration` (src/dw_node.rs lines 18-25). -/
inductive DWMethod where
  | Simple : DWMethod
  | OnlyBest : DWMethod
  | LowMem : DWMethod
  | Keep : DWMethod
  | RandomDelete : DWMethod
deriving DecidableEq

/-- `DWFileFormat` (src/dw_server.rs). -/
inductive DWFileFormat where
  | Binary : DWFileFormat
  | JSON : DWFileFormat
deriving DecidableEq

/-- `DWConfiguration` (src/dw_config.rs lines 8-26). -/
structure DWConfiguration where
  max_population_size : ℕ
  fitness_limit : F64
  export_file_name : String
  save_new_best_individual : Bool
  file_format : DWFileFormat
  num_of_iterations : ℕ
  num_of_mutations : ℕ
  mutate_method : DWMethod
  delete_method : DWDeleteMethod
  additional_fitness_threshold : Option F64
  reset_limit : ℕ

/-- `impl Default for DWConfiguration` (src/dw_config.rs lines 28-49). -/
def DWConfiguration.default : DWConfiguration :=
  { max_population_size := 20
    fitness_limit := F64.fin 1
    export_file_name := ("best_population")
    save_new_best_individual := false
    file_format := .JSON
    num_of_iterations := 1000
    num_of_mutations := 10
    mutate_method := .Simple
    delete_method := .SortUnique
    additional_fitness_threshold := none
    reset_limit := 100 }

/-- The user-supplied `DWIndividual` trait (src/dw_individual.rs lines
6-20), as one deterministic behaviour of the user's code; internal
randomness of the user's `mutate`/`random_reset` can always be folded
into `T` itself (`T` is universally quantified in every theorem). -/
structure DWIndividual (T : Type) where
  mutate : T → T → T
  calculate_fitness : T → F64
  get_additional_fitness : T → F64
  random_reset : T → T

/-- `DWIndividualWrapper` (src/dw_individual.rs lines 22-26). -/
structure DWIndividualWrapper (T : Type) where
  individual : T
  fitness : F64
deriving DecidableEq

/-- `DWIndividualWrapper::new` (src/dw_individual.rs lines 29-34):
the cached fitness starts at `f64::MAX`. -/
def DWIndividualWrapper.new {T : Type} (individual : T) : DWIndividualWrapper T :=
  { individual := individual, fitness := f64_MAX }

/-- `DWIndividualWrapper::mutate` (src/dw_individual.rs lines 36-38). -/
def DWIndividualWrapper.mutate {T : Type} (I : DWIndividual T)
    (self other : DWIndividualWrapper T) : DWIndividualWrapper T :=
  { self with individual := I.mutate self.individual other.individual }

/-- `DWIndividualWrapper::calculate_fitness` (src/dw_individual.rs lines
40-42): caches whatever the user's fitness function returns — there is
no NaN check on this path. -/
def DWIndividualWrapper.calculate_fitness {T : Type} (I : DWIndividual T)
    (self : DWIndividualWrapper T) : DWIndividualWrapper T :=
  { self with fitness := I.calculate_fitness self.individual }

def DWIndividualWrapper.get_fitness {T : Type} (self : DWIndividualWrapper T) : F64 :=
  self.fitness

/-- `DWIndividualWrapper::random_reset` (src/dw_individual.rs lines 52-54). -/
def DWIndividualWrapper.random_reset {T : Type} (I : DWIndividual T)
    (self : DWIndividualWrapper T) : DWIndividualWrapper T :=
  { self with individual := I.random_reset self.individual }

/-- `impl Ord for DWIndividualWrapper` (src/dw_individual.rs lines 61-79):
`partial_cmp` on the fitness followed by `expect`, i.e. a panic (`none`)
exactly when a NaN fitness is compared. -/
def wrapperCmp {T : Type} (a b : DWIndividualWrapper T) : Option Ordering :=
  match a.fitness, b.fitness with
  | F64.nan, _ => none
  | _, F64.nan => none
  | x, y => some (if F64.lt x y then .lt else if x = y then .eq else .gt)

/-- The ordering used to model `sort`/`sort_unstable` on wrappers:
fitness ascending. -/
def wrapperLe {T : Type} (a b : DWIndividualWrapper T) : Prop :=
  F64.le a.fitness b.fitness = true

instance {T : Type} : DecidableRel (@wrapperLe T) :=
  fun a b => decidable_of_iff (F64.le a.fitness b.fitness = true) Iff.rfl

/-- `rng.gen_range(lo..hi)` on the stream model of `StdRng`: consumes the
next raw draw; an empty range is a panic (`none`). -/
def genRange (lo hi : ℕ) (r : ℕ → ℕ) : Option (ℕ × (ℕ → ℕ)) :=
  if lo < hi then some (lo + r 0 % (hi - lo), fun n => r (n + 1)) else none

/-- `Vec::swap_remove(i)` for `i < l.length`: overwrite index `i` with the
last element, then drop the last element. -/
def swapRemove {α : Type} (l : List α) (i : ℕ) : List α :=
  match l.getLast? with
  | none => l
  | some last => (l.set i last).dropLast

/-- Helper for `Vec::dedup`: `a` is the last retained element; every
following element equal to it (by the wrapper `PartialEq`, i.e. IEEE
fitness equality) is dropped. -/
def dedupFrom {T : Type} (a : DWIndividualWrapper T) :
    List (DWIndividualWrapper T) → List (DWIndividualWrapper T)
  | [] => []
  | b :: rest =>
    if F64.eqv a.fitness b.fitness then dedupFrom a rest
    else b :: dedupFrom b rest

/-- `Vec::dedup`: removes consecutive duplicates (wrapper `PartialEq`,
which compares the cached fitness with IEEE `==`), keeping the first of
each run. -/
def dedupAdj {T : Type} : List (DWIndividualWrapper T) → List (DWIndividualWrapper T)
  | [] => []
  | a :: rest => a :: dedupFrom a rest

/-- `Vec::sort_unstable` through the wrapper `Ord`, whose `expect` panics
when a NaN fitness is compared (src/dw_individual.rs line 77): modelled as
failure whenever a NaN fitness is present, and by a deterministic
insertion sort standing for the unspecified unstable order. -/
def sortCollection {T : Type} (l : List (DWIndividualWrapper T)) :
    Option (List (DWIndividualWrapper T)) :=
  if l.any (fun w => F64.isNaN w.fitness) then none
  else some (List.insertionSort wrapperLe l)

/-- `DWPopulation` (src/dw_population.rs lines 79-90).  `rng: StdRng` is
modelled as the stream of raw draws it will produce. -/
structure DWPopulation (T : Type) where
  collection : List (DWIndividualWrapper T)
  max_population_size : ℕ
  num_of_mutations : ℕ
  fitness_limit : F64
  new_best_fitness : F64
  reset_counter : ℕ
  reset_fitness : F64
  max_reset : ℕ
  delete_method : DWDeleteMethod
  rng : ℕ → ℕ

/-- `DWPopulation::new` (src/dw_population.rs lines 93-122).  `entropy`
models the `SeedableRng::from_entropy()` draw stream.  Note the source
hard-codes `max_reset: 100` and never reads `dw_configuration.reset_limit`;
the construction-time sort panic on NaN is not modelled (no claim touches
it). -/
def DWPopulation.new {T : Type} (I : DWIndividual T)
    (initial : DWIndividualWrapper T) (dw_configuration : DWConfiguration)
    (entropy : ℕ → ℕ) : DWPopulation T :=
  let collection := (List.range dw_configuration.max_population_size).map
    (fun _ => DWIndividualWrapper.calculate_fitness I
      (DWIndividualWrapper.mutate I initial initial))
  { collection := List.insertionSort wrapperLe collection
    max_population_size := dw_configuration.max_population_size
    num_of_mutations := dw_configuration.num_of_mutations
    fitness_limit := dw_configuration.fitness_limit
    new_best_fitness := f64_MAX
    reset_counter := 0
    reset_fitness := F64.fin 0
    max_reset := 100
    delete_method := dw_configuration.delete_method
    rng := entropy }

/-- `DWPopulation::get_best_fitness` (src/dw_population.rs lines 179-181):
`collection[0]` panics (`none`) on an empty collection. -/
def DWPopulation.get_best_fitness {T : Type} (pop : DWPopulation T) : Option F64 :=
  pop.collection.head?.map (fun w => w.fitness)

/-- `DWPopulation::add_individual` (src/dw_population.rs lines 215-217):
an unconditional push, with no check on the cached fitness. -/
def DWPopulation.add_individual {T : Type} (pop : DWPopulation T)
    (new_individual : DWIndividualWrapper T) : DWPopulation T :=
  { pop with collection := pop.collection ++ [new_individual] }

/-- `DWPopulation::has_new_best_individual` (src/dw_population.rs lines
200-209). -/
def DWPopulation.has_new_best_individual {T : Type} (pop : DWPopulation T) :
    Option (Bool × DWPopulation T) :=
  match pop.get_best_fitness with
  | none => none
  | some best_fitness =>
    if F64.lt best_fitness pop.new_best_fitness then
      some (true, { pop with new_best_fitness := best_fitness })
    else
      some (false, pop)

/-- `DWPopulation::is_job_done` (src/dw_population.rs lines 175-177). -/
def DWPopulation.is_job_done {T : Type} (pop : DWPopulation T) : Option Bool :=
  pop.get_best_fitness.map (fun best => F64.lt best pop.fitness_limit)

/-- `DWPopulation::reseed_rng` (src/dw_population.rs lines 293-295):
replaces the random stream with a fresh entropy stream. -/
def DWPopulation.reseed_rng {T : Type} (entropy : ℕ → ℕ)
    (pop : DWPopulation T) : DWPopulation T :=
  { pop with rng := entropy }

/-- `DWPopulation::check_reset` (src/dw_population.rs lines 124-146), with
a boolean recording whether the random-reset branch fired (used to state
the temporal claim about `random_reset`). -/
def checkResetAux {T : Type} (I : DWIndividual T)
    (individual : DWIndividualWrapper T) (pop : DWPopulation T) :
    Option (DWPopulation T × Bool) :=
  match pop.get_best_fitness with
  | none => none
  | some fitness =>
    if F64.eqv pop.reset_fitness fitness then
      if pop.max_reset ≤ pop.reset_counter + 1 then
        let resetColl := pop.collection.map (fun w =>
          DWIndividualWrapper.calculate_fitness I
            (DWIndividualWrapper.random_reset I w))
        some ({ pop with reset_counter := 0, collection := resetColl }, true)
      else
        some (DWPopulation.add_individual
          { pop with reset_counter := pop.reset_counter + 1 } individual, false)
    else
      if F64.lt fitness individual.fitness then
        some (DWPopulation.add_individual
          { pop with reset_fitness := fitness, reset_counter := 0 } individual, false)
      else
        some ({ pop with reset_fitness := fitness, reset_counter := 0 }, false)

def DWPopulation.check_reset {T : Type} (I : DWIndividual T)
    (individual : DWIndividualWrapper T) (pop : DWPopulation T) :
    Option (DWPopulation T) :=
  (checkResetAux I individual pop).map (fun x => x.1)

/-- `DWPopulation::random_index_new` (src/dw_population.rs lines 165-173):
redraw `gen_range(0..len)` until the draw differs from `index1`.  The
`while` loop is unbounded in the source (it diverges when the collection
has a single element), so it is modelled with fuel. -/
def randomIndexNewAux (len index1 : ℕ) : ℕ → (ℕ → ℕ) → Option (ℕ × (ℕ → ℕ))
  | 0, _ => none
  | fuel + 1, r =>
    match genRange 0 len r with
    | none => none
    | some (index2, r2) =>
      if index2 = index1 then randomIndexNewAux len index1 fuel r2
      else some (index2, r2)

/-- The loop body of `DWPopulation::mutate_random_single_clone`
(src/dw_population.rs lines 219-230): `k` remaining iterations of
`for _ in 0..self.num_of_mutations`; each iteration draws two distinct
indices, clones `collection[index1]`, mutates it once against
`collection[index2]`, rescores it and pushes it. -/
def mutateRSCAux {T : Type} (I : DWIndividual T) (fuel : ℕ) :
    ℕ → DWPopulation T → Option (DWPopulation T)
  | 0, pop => some pop
  | k + 1, pop =>
    match genRange 0 pop.collection.length pop.rng with
    | none => none
    | some (index1, r1) =>
      match randomIndexNewAux pop.collection.length index1 fuel r1 with
      | none => none
      | some (index2, r2) =>
        match pop.collection.get? index1, pop.collection.get? index2 with
        | some src, some peer =>
          let newInd := DWIndividualWrapper.calculate_fitness I
            (DWIndividualWrapper.mutate I src peer)
          mutateRSCAux I fuel k
            { pop with collection := pop.collection ++ [newInd], rng := r2 }
        | _, _ => none

/-- `DWPopulation::mutate_random_single_clone` (src/dw_population.rs lines
219-230). -/
def DWPopulation.mutate_random_single_clone {T : Type} (I : DWIndividual T)
    (fuel : ℕ) (pop : DWPopulation T) : Option (DWPopulation T) :=
  mutateRSCAux I fuel pop.num_of_mutations pop

/-- Inner loop of `DWPopulation::mutate_all_clone` (src/dw_population.rs
lines 236-240): apply `k` peered mutations to the clone `cur`; only the
rng advances in the population. -/
def mutateAllCloneInner {T : Type} (I : DWIndividual T) (fuel index1 : ℕ) :
    ℕ → DWIndividualWrapper T → DWPopulation T →
    Option (DWIndividualWrapper T × DWPopulation T)
  | 0, cur, pop => some (cur, pop)
  | k + 1, cur, pop =>
    match randomIndexNewAux pop.collection.length index1 fuel pop.rng with
    | none => none
    | some (index2, r2) =>
      match pop.collection.get? index2 with
      | none => none
      | some peer =>
        mutateAllCloneInner I fuel index1 k
          (DWIndividualWrapper.mutate I cur peer) { pop with rng := r2 }

/-- Outer loop of `DWPopulation::mutate_all_clone` over the indices
`0..len` captured before the loop starts (Rust evaluates the range
bound once). -/
def mutateAllCloneGo {T : Type} (I : DWIndividual T) (fuel : ℕ) :
    List ℕ → DWPopulation T → Option (DWPopulation T)
  | [], pop => some pop
  | index1 :: rest, pop =>
    match pop.collection.get? index1 with
    | none => none
    | some src =>
      match mutateAllCloneInner I fuel index1 pop.num_of_mutations src pop with
      | none => none
      | some (cur, pop1) =>
        let newInd := DWIndividualWrapper.calculate_fitness I cur
        mutateAllCloneGo I fuel rest
          { pop1 with collection := pop1.collection ++ [newInd] }

/-- `DWPopulation::mutate_all_clone` (src/dw_population.rs lines 232-245). -/
def DWPopulation.mutate_all_clone {T : Type} (I : DWIndividual T) (fuel : ℕ)
    (pop : DWPopulation T) : Option (DWPopulation T) :=
  mutateAllCloneGo I fuel (List.range pop.collection.length) pop

/-- Inner loop of `DWPopulation::mutate_all_only_best` (src/dw_population.rs
lines 252-261): mutate and rescore the clone `cur` `k` times, pushing a
copy whenever its fitness drops strictly below the source's original
fitness. -/
def mutateOnlyBestInner {T : Type} (I : DWIndividual T) (fuel index1 : ℕ)
    (old_fitness : F64) : ℕ → DWIndividualWrapper T → DWPopulation T →
    Option (DWPopulation T)
  | 0, _, pop => some pop
  | k + 1, cur, pop =>
    match randomIndexNewAux pop.collection.length index1 fuel pop.rng with
    | none => none
    | some (index2, r2) =>
      match pop.collection.get? index2 with
      | none => none
      | some peer =>
        let cur1 := DWIndividualWrapper.calculate_fitness I
          (DWIndividualWrapper.mutate I cur peer)
        if F64.lt cur1.fitness old_fitness then
          mutateOnlyBestInner I fuel index1 old_fitness k cur1
            { pop with collection := pop.collection ++ [cur1], rng := r2 }
        else
          mutateOnlyBestInner I fuel index1 old_fitness k cur1 { pop with rng := r2 }

/-- Outer loop of `DWPopulation::mutate_all_only_best`. -/
def mutateOnlyBestGo {T : Type} (I : DWIndividual T) (fuel : ℕ) :
    List ℕ → DWPopulation T → Option (DWPopulation T)
  | [], pop => some pop
  | index1 :: rest, pop =>
    match pop.collection.get? index1 with
    | none => none
    | some src =>
      match mutateOnlyBestInner I fuel index1 src.fitness pop.num_of_mutations src pop with
      | none => none
      | some pop1 => mutateOnlyBestGo I fuel rest pop1

/-- `DWPopulation::mutate_all_only_best` (src/dw_population.rs lines
247-263). -/
def DWPopulation.mutate_all_only_best {T : Type} (I : DWIndividual T)
    (fuel : ℕ) (pop : DWPopulation T) : Option (DWPopulation T) :=
  mutateOnlyBestGo I fuel (List.range pop.collection.length) pop

/-- The `while self.collection.len() > self.max_population_size` loop of
the `RandomBest3` branch of `delete` (src/dw_population.rs lines 280-283):
swap-remove a uniformly random index in `[3, len)`.  Each iteration
shrinks the list, so `fuel ≥ l.length` always suffices. -/
def randomBest3LoopAux {T : Type} (maxSize : ℕ) :
    ℕ → List (DWIndividualWrapper T) → (ℕ → ℕ) →
    Option (List (DWIndividualWrapper T) × (ℕ → ℕ))
  | 0, l, r => if maxSize < l.length then none else some (l, r)
  | fuel + 1, l, r =>
    if maxSize < l.length then
      match genRange 3 l.length r with
      | none => none
      | some (i, r2) => randomBest3LoopAux maxSize fuel (swapRemove l i) r2
    else some (l, r)

/-- `DWPopulation::delete` (src/dw_population.rs lines 265-286);
`truncate` is `List.take`, `sort_unstable`/`dedup` as modelled above. -/
def DWPopulation.delete {T : Type} (fuel : ℕ) (pop : DWPopulation T) :
    Option (DWPopulation T) :=
  match pop.delete_method with
  | .SortKeep =>
    match sortCollection pop.collection with
    | none => none
    | some sorted =>
      some { pop with collection := sorted.take pop.max_population_size }
  | .SortUnique =>
    match sortCollection pop.collection with
    | none => none
    | some sorted =>
      some { pop with collection := (dedupAdj sorted).take pop.max_population_size }
  | .RandomBest3 =>
    match sortCollection pop.collection with
    | none => none
    | some sorted =>
      match randomBest3LoopAux pop.max_population_size fuel (dedupAdj sorted) pop.rng with
      | none => none
      | some (l2, r2) => some { pop with collection := l2, rng := r2 }

/-- One externally driven call of the public mutating operations of
`DWPopulation`, with the data (candidate wrappers, fuel, fresh entropy)
each call consumes. -/
inductive DWOp (T : Type) where
  | check_reset : DWIndividualWrapper T → DWOp T
  | mutate_random_single_clone : ℕ → DWOp T
  | mutate_all_clone : ℕ → DWOp T
  | mutate_all_only_best : ℕ → DWOp T
  | delete : ℕ → DWOp T
  | has_new_best_individual : DWOp T
  | add_individual : DWIndividualWrapper T → DWOp T
  | reseed_rng : (ℕ → ℕ) → DWOp T

/-- Apply one operation (the boolean result of `has_new_best_individual`
is discarded, only the state matters here). -/
def applyOp {T : Type} (I : DWIndividual T) :
    DWOp T → DWPopulation T → Option (DWPopulation T)
  | .check_reset cand, pop => DWPopulation.check_reset I cand pop
  | .mutate_random_single_clone fuel, pop =>
    DWPopulation.mutate_random_single_clone I fuel pop
  | .mutate_all_clone fuel, pop => DWPopulation.mutate_all_clone I fuel pop
  | .mutate_all_only_best fuel, pop => DWPopulation.mutate_all_only_best I fuel pop
  | .delete fuel, pop => DWPopulation.delete fuel pop
  | .has_new_best_individual, pop =>
    (DWPopulation.has_new_best_individual pop).map (fun x => x.2)
  | .add_individual w, pop => some (DWPopulation.add_individual pop w)
  | .reseed_rng entropy, pop => some (DWPopulation.reseed_rng entropy pop)

/-- Run a sequence of operations, stopping at the first panic. -/
def runOps {T : Type} (I : DWIndividual T) :
    List (DWOp T) → DWPopulation T → Option (DWPopulation T)
  | [], pop => some pop
  | op :: ops, pop =>
    match applyOp I op pop with
    | none => none
    | some pop1 => runOps I ops pop1

/-- `n` successive `check_reset` calls with the same external candidate;
the boolean records whether the random-reset branch fired in any of them. -/
def runChecks {T : Type} (I : DWIndividual T) (cand : DWIndividualWrapper T) :
    ℕ → DWPopulation T → Option (DWPopulation T × Bool)
  | 0, pop => some (pop, false)
  | n + 1, pop =>
    match checkResetAux I cand pop with
    | none => none
    | some (pop1, fired) =>
      match runChecks I cand n pop1 with
      | none => none
      | some (pop2, fired2) => some (pop2, fired || fired2)

/-- A concrete individual behaviour over `ℕ` used for witnesses:
mutation adds the peer, fitness is the value itself. -/
def exIndNat : DWIndividual ℕ :=
  { mutate := fun a b => a + b
    calculate_fitness := fun n => F64.fin n
    get_additional_fitness := fun _ => F64.fin 0
    random_reset := fun _ => 0 }

/-- A concrete individual behaviour whose fitness function returns NaN. -/
def exIndNan : DWIndividual ℕ :=
  { mutate := fun a b => a + b
    calculate_fitness := fun _ => F64.nan
    get_additional_fitness := fun _ => F64.fin 0
    random_reset := fun _ => 0 }

/-- A concrete individual behaviour over `Unit` with constant fitness 1. -/
def exIndUnit : DWIndividual Unit :=
  { mutate := fun a _ => a
    calculate_fitness := fun _ => F64.fin 1
    get_additional_fitness := fun _ => F64.fin 0
    random_reset := fun a => a }

/-- A concrete raw-draw stream. -/
def exStream : ℕ → ℕ := fun n => n

def exW10 : DWIndividualWrapper ℕ := { individual := 10, fitness := F64.fin 10 }

def exW20 : DWIndividualWrapper ℕ := { individual := 20, fitness := F64.fin 20 }

/-- Concrete population: two members, `num_of_mutations = 2`. -/
def exPopMut : DWPopulation ℕ :=
  { collection := [exW10, exW20]
    max_population_size := 20
    num_of_mutations := 2
    fitness_limit := F64.fin 1
    new_best_fitness := f64_MAX
    reset_counter := 0
    reset_fitness := F64.fin 0
    max_reset := 100
    delete_method := .SortKeep
    rng := exStream }

def exV1 : DWIndividualWrapper ℕ := { individual := 1, fitness := F64.fin 1 }

def exV2 : DWIndividualWrapper ℕ := { individual := 2, fitness := F64.fin 1 }

def exV3 : DWIndividualWrapper ℕ := { individual := 3, fitness := F64.fin 2 }

def exV4 : DWIndividualWrapper ℕ := { individual := 4, fitness := F64.fin 3 }

/-- Concrete population under `RandomBest3` whose two best members tie on
fitness 1. -/
def exPopBest3 : DWPopulation ℕ :=
  { exPopMut with collection := [exV1, exV2, exV3, exV4]
                  max_population_size := 4
                  delete_method := .RandomBest3 }

/-- Concrete population with `max_population_size = 0`. -/
def exPopZeroMax : DWPopulation ℕ :=
  { exPopMut with collection := [exW10], max_population_size := 0 }

/-- Concrete population for the monotone-best sequence. -/
def exPopMono : DWPopulation ℕ :=
  { exPopMut with collection := [{ individual := 0, fitness := F64.fin 5 }]
                  max_population_size := 4
                  new_best_fitness := F64.fin 1000 }

def exOpsMono : List (DWOp ℕ) :=
  [DWOp.add_individual { individual := 1, fitness := F64.fin 0 },
   DWOp.has_new_best_individual, DWOp.delete 4]

/-- Concrete stagnating population: best fitness equals `reset_fitness`
and the counter is one call away from `max_reset`. -/
def exPopStag : DWPopulation ℕ :=
  { exPopMut with reset_fitness := F64.fin 10, reset_counter := 99 }

/-- The configuration of the reset-limit scenario: `reset_limit = 0`. -/
def exCfgZeroReset : DWConfiguration :=
  { DWConfiguration.default with max_population_size := 1, reset_limit := 0 }

def exCandUnit : DWIndividualWrapper Unit := { individual := (), fitness := F64.fin 2 }

/-- The population built from `exCfgZeroReset`. -/
def exPopReset : DWPopulation Unit :=
  DWPopulation.new exIndUnit (DWIndividualWrapper.new ()) exCfgZeroReset exStream

/-- The wrapper produced by scoring with a NaN-returning fitness function. -/
def exWNan : DWIndividualWrapper ℕ :=
  DWIndividualWrapper.calculate_fitness exIndNan (DWIndividualWrapper.new 0)

theorem F64.eqv_eq {a b : F64} (h : F64.eqv a b = true) : a = b := by
  cases a <;> cases b <;> simp_all [F64.eqv]

theorem F64.lt_trans {a b c : F64} (h1 : F64.lt a b = true)
    (h2 : F64.lt b c = true) : F64.lt a c = true := by
  cases a <;> cases b <;> cases c <;> simp_all [F64.lt]
  exact h1.trans h2

theorem take_set_of_le {α : Type} (a : α) :
    ∀ (l : List α) (i n : ℕ), n ≤ i → (l.set i a).take n = l.take n := by
  intro l
  induction l with
  | nil => intro i n _; simp
  | cons x xs ih =>
    intro i n hn
    cases n with
    | zero => simp
    | succ n =>
      cases i with
      | zero => omega
      | succ i =>
        simp only [List.set, List.take_succ_cons]
        rw [ih i n (Nat.le_of_succ_le_succ hn)]

theorem mem_take_succ_of_mem_take {α : Type} {x : α} :
    ∀ (l : List α) (m : ℕ), x ∈ l.take m → x ∈ l.take (m + 1) := by
  intro l
  induction l with
  | nil => intro m h; simp at h
  | cons y ys ih =>
    intro m h
    cases m with
    | zero => simp at h
    | succ m =>
      rw [List.take_succ_cons] at h ⊢
      rcases List.mem_cons.mp h with h | h
      · exact h ▸ List.mem_cons_self y _
      · exact List.mem_cons_of_mem y (ih m h)

theorem swapRemove_length {α : Type} (l : List α) (i : ℕ) (h : l ≠ []) :
    (swapRemove l i).length = l.length - 1 := by
  unfold swapRemove
  rw [List.getLast?_eq_getLast l h]
  simp

theorem swapRemove_take {α : Type} (l : List α) (i n : ℕ) (hi : n ≤ i)
    (hlen : n + 1 ≤ l.length) : (swapRemove l i).take n = l.take n := by
  have hne : l ≠ [] := by
    intro h; rw [h] at hlen; simp at hlen
  unfold swapRemove
  rw [List.getLast?_eq_getLast l hne]
  show List.take n ((l.set i (l.getLast hne)).dropLast) = List.take n l
  rw [List.dropLast_eq_take, List.length_set, List.take_take]
  have hmin : min n (l.length - 1) = n := by omega
  rw [hmin, take_set_of_le _ _ _ _ hi]

theorem dedupFrom_take_rep {T : Type} :
    ∀ (l : List (DWIndividualWrapper T)) (a w : DWIndividualWrapper T) (n : ℕ),
      w ∈ (a :: l).take n →
      ∃ u, u ∈ (a :: dedupFrom a l).take n ∧ u.fitness = w.fitness := by
  intro l
  induction l with
  | nil =>
    intro a w n hw
    cases n with
    | zero => simp at hw
    | succ n =>
      rw [List.take_succ_cons] at hw
      rcases List.mem_cons.mp hw with h | h
      · exact ⟨a, by simp [dedupFrom, List.take_succ_cons], h ▸ rfl⟩
      · simp at h
  | cons b rest ih =>
    intro a w n hw
    cases n with
    | zero => simp at hw
    | succ n =>
      rw [List.take_succ_cons] at hw
      rcases List.mem_cons.mp hw with h | h
      · exact ⟨a, by simp [List.take_succ_cons], h ▸ rfl⟩
      · by_cases heq : F64.eqv a.fitness b.fitness
        · simp only [dedupFrom, heq, if_true]
          cases n with
          | zero => simp at h
          | succ n =>
            rw [List.take_succ_cons] at h
            rcases List.mem_cons.mp h with h2 | h2
            · refine ⟨a, ?_, ?_⟩
              · rw [List.take_succ_cons]; exact List.mem_cons_self a _
              · rw [h2]
                exact F64.eqv_eq heq
            · have hw2 : w ∈ (a :: rest).take (n + 1 + 1) := by
                rw [List.take_succ_cons]
                exact List.mem_cons_of_mem a (mem_take_succ_of_mem_take rest n h2)
              exact ih a w (n + 1 + 1) hw2
        · simp only [dedupFrom, heq, if_false]
          rcases ih b w n h with ⟨u, hu, hufit⟩
          refine ⟨u, ?_, hufit⟩
          rw [List.take_succ_cons]
          exact List.mem_cons_of_mem a hu

theorem randomBest3LoopAux_spec {T : Type} (maxSize : ℕ) :
    ∀ (fuel : ℕ) (l l2 : List (DWIndividualWrapper T)) (r r2 : ℕ → ℕ),
      randomBest3LoopAux maxSize fuel l r = some (l2, r2) →
      l2.take 3 = l.take 3 ∧ l2.length = min l.length maxSize := by
  intro fuel
  induction fuel with
  | zero =>
    intro l l2 r r2 h
    unfold randomBest3LoopAux at h
    by_cases hlen : maxSize < l.length
    · simp [hlen] at h
    · simp only [hlen, if_false, Option.some.injEq, Prod.mk.injEq] at h
      obtain ⟨h1, _⟩ := h
      subst h1
      exact ⟨rfl, by omega⟩
  | succ fuel ih =>
    intro l l2 r r2 h
    unfold randomBest3LoopAux at h
    by_cases hlen : maxSize < l.length
    · simp only [hlen, if_true] at h
      unfold genRange at h
      by_cases h3 : 3 < l.length
      · simp only [h3, if_true] at h
        have hne : l ≠ [] := by
          intro hnil; rw [hnil] at h3; simp at h3
        have hi : 3 ≤ 3 + r 0 % (l.length - 3) := Nat.le_add_right 3 _
        rcases ih (swapRemove l (3 + r 0 % (l.length - 3))) l2 _ r2 h with ⟨ht, hl⟩
        have hlen2 : (swapRemove l (3 + r 0 % (l.length - 3))).length = l.length - 1 :=
          swapRemove_length l _ hne
        constructor
        · rw [ht, swapRemove_take l _ 3 hi (by omega)]
        · rw [hl, hlen2]
          omega
      · simp [h3] at h
    · simp only [hlen, if_false, Option.some.injEq, Prod.mk.injEq] at h
      obtain ⟨h1, _⟩ := h
      subst h1
      exact ⟨rfl, by omega⟩

theorem sortCollection_perm {T : Type} {l s : List (DWIndividualWrapper T)}
    (h : sortCollection l = some s) : List.Perm s l := by
  unfold sortCollection at h
  by_cases hnan : l.any (fun w => F64.isNaN w.fitness)
  · simp [hnan] at h
  · simp [hnan] at h
    exact h ▸ List.perm_insertionSort wrapperLe l

/-- One step of the evolution of `new_best_fitness`: either unchanged or
strictly decreased in the IEEE order. -/
def nbfStep (new old : F64) : Prop := new = old ∨ F64.lt new old = true

theorem nbfStep_trans {a b c : F64} (h1 : nbfStep b a) (h2 : nbfStep c b) :
    nbfStep c a := by
  rcases h1 with h1 | h1 <;> rcases h2 with h2 | h2
  · exact Or.inl (h2.trans h1)
  · exact Or.inr (h1 ▸ h2)
  · exact Or.inr (h2 ▸ h1)
  · exact Or.inr (F64.lt_trans h2 h1)

theorem mutateRSCAux_nbf {T : Type} (I : DWIndividual T) (fuel : ℕ) :
    ∀ (k : ℕ) (pop pop2 : DWPopulation T), mutateRSCAux I fuel k pop = some pop2 →
      pop2.new_best_fitness = pop.new_best_fitness := by
  intro k
  induction k with
  | zero =>
    intro pop pop2 h
    simp [mutateRSCAux] at h
    rw [← h]
  | succ k ih =>
    intro pop pop2 h
    unfold mutateRSCAux at h
    repeat' split at h
    all_goals first
      | exact Option.noConfusion h
      | (have h2 := ih _ _ h; exact h2)

theorem mutateAllCloneInner_nbf {T : Type} (I : DWIndividual T) (fuel index1 : ℕ) :
    ∀ (k : ℕ) (cur cur2 : DWIndividualWrapper T) (pop pop2 : DWPopulation T),
      mutateAllCloneInner I fuel index1 k cur pop = some (cur2, pop2) →
      pop2.new_best_fitness = pop.new_best_fitness := by
  intro k
  induction k with
  | zero =>
    intro cur cur2 pop pop2 h
    simp [mutateAllCloneInner] at h
    rw [← h.2]
  | succ k ih =>
    intro cur cur2 pop pop2 h
    unfold mutateAllCloneInner at h
    repeat' split at h
    all_goals first
      | exact Option.noConfusion h
      | (have h2 := ih _ _ _ _ h; exact h2)

theorem mutateAllCloneGo_nbf {T : Type} (I : DWIndividual T) (fuel : ℕ) :
    ∀ (idx : List ℕ) (pop pop2 : DWPopulation T),
      mutateAllCloneGo I fuel idx pop = some pop2 →
      pop2.new_best_fitness = pop.new_best_fitness := by
  intro idx
  induction idx with
  | nil =>
    intro pop pop2 h
    simp [mutateAllCloneGo] at h
    rw [← h]
  | cons index1 rest ih =>
    intro pop pop2 h
    unfold mutateAllCloneGo at h
    repeat' split at h
    all_goals first
      | exact Option.noConfusion h
      | next cur pop1 heq =>
          have h3 := mutateAllCloneInner_nbf I fuel index1 _ _ _ _ _ heq
          have h4 := ih _ _ h
          exact h4.trans h3

theorem mutateOnlyBestInner_nbf {T : Type} (I : DWIndividual T)
    (fuel index1 : ℕ) (old_fitness : F64) :
    ∀ (k : ℕ) (cur : DWIndividualWrapper T) (pop pop2 : DWPopulation T),
      mutateOnlyBestInner I fuel index1 old_fitness k cur pop = some pop2 →
      pop2.new_best_fitness = pop.new_best_fitness := by
  intro k
  induction k with
  | zero =>
    intro cur pop pop2 h
    simp [mutateOnlyBestInner] at h
    rw [← h]
  | succ k ih =>
    intro cur pop pop2 h
    unfold mutateOnlyBestInner at h
    simp only [] at h
    repeat' split at h
    all_goals first
      | exact Option.noConfusion h
      | (have h2 := ih _ _ _ h; exact h2)

theorem mutateOnlyBestGo_nbf {T : Type} (I : DWIndividual T) (fuel : ℕ) :
    ∀ (idx : List ℕ) (pop pop2 : DWPopulation T),
      mutateOnlyBestGo I fuel idx pop = some pop2 →
      pop2.new_best_fitness = pop.new_best_fitness := by
  intro idx
  induction idx with
  | nil =>
    intro pop pop2 h
    simp [mutateOnlyBestGo] at h
    rw [← h]
  | cons index1 rest ih =>
    intro pop pop2 h
    unfold mutateOnlyBestGo at h
    repeat' split at h
    all_goals first
      | exact Option.noConfusion h
      | next pop1 heq =>
          have h3 := mutateOnlyBestInner_nbf I fuel index1 _ _ _ _ _ heq
          have h4 := ih _ _ h
          exact h4.trans h3

theorem checkResetAux_nbf {T : Type} (I : DWIndividual T)
    (cand : DWIndividualWrapper T) (pop : DWPopulation T)
    (pop2 : DWPopulation T) (fired : Bool)
    (h : checkResetAux I cand pop = some (pop2, fired)) :
    pop2.new_best_fitness = pop.new_best_fitness := by
  unfold checkResetAux at h
  repeat' split at h
  all_goals first
    | exact Option.noConfusion h
    | (injection h with h1; injection h1 with h2 _; subst h2; rfl)

theorem check_reset_nbf {T : Type} (I : DWIndividual T)
    (cand : DWIndividualWrapper T) (pop pop2 : DWPopulation T)
    (h : DWPopulation.check_reset I cand pop = some pop2) :
    pop2.new_best_fitness = pop.new_best_fitness := by
  unfold DWPopulation.check_reset at h
  rcases Option.map_eq_some'.mp h with ⟨⟨pop1, fired⟩, haux, hfst⟩
  rw [← hfst]
  exact checkResetAux_nbf I cand pop pop1 fired haux

theorem delete_nbf {T : Type} (fuel : ℕ) (pop pop2 : DWPopulation T)
    (h : DWPopulation.delete fuel pop = some pop2) :
    pop2.new_best_fitness = pop.new_best_fitness := by
  unfold DWPopulation.delete at h
  repeat' split at h
  all_goals first
    | exact Option.noConfusion h
    | (injection h with h1; rw [← h1])

theorem mutateRSCAux_length {T : Type} (I : DWIndividual T) (fuel : ℕ) :
    ∀ (k : ℕ) (pop pop2 : DWPopulation T), mutateRSCAux I fuel k pop = some pop2 →
      pop2.collection.length = pop.collection.length + k := by
  intro k
  induction k with
  | zero =>
    intro pop pop2 h
    simp [mutateRSCAux] at h
    rw [← h]
    omega
  | succ k ih =>
    intro pop pop2 h
    unfold mutateRSCAux at h
    repeat' split at h
    all_goals first
      | exact Option.noConfusion h
      | (have h2 := ih _ _ h
         rw [h2]
         simp only [List.length_append, List.length_cons, List.length_nil]
         omega)

theorem has_new_best_nbf {T : Type} (pop pop2 : DWPopulation T)
    (h : (DWPopulation.has_new_best_individual pop).map (fun x => x.2) = some pop2) :
    nbfStep pop2.new_best_fitness pop.new_best_fitness := by
  unfold DWPopulation.has_new_best_individual at h
  repeat' split at h
  · exact Option.noConfusion h
  · injection h with h1
    subst h1
    next hlt => exact Or.inr hlt
  · injection h with h1
    subst h1
    exact Or.inl rfl

theorem applyOp_nbf {T : Type} (I : DWIndividual T) (op : DWOp T)
    (pop pop2 : DWPopulation T) (h : applyOp I op pop = some pop2) :
    nbfStep pop2.new_best_fitness pop.new_best_fitness := by
  cases op with
  | check_reset cand => exact Or.inl (check_reset_nbf I cand pop pop2 h)
  | mutate_random_single_clone fuel =>
    exact Or.inl (mutateRSCAux_nbf I fuel pop.num_of_mutations pop pop2 h)
  | mutate_all_clone fuel =>
    exact Or.inl (mutateAllCloneGo_nbf I fuel (List.range pop.collection.length) pop pop2 h)
  | mutate_all_only_best fuel =>
    exact Or.inl (mutateOnlyBestGo_nbf I fuel (List.range pop.collection.length) pop pop2 h)
  | delete fuel => exact Or.inl (delete_nbf fuel pop pop2 h)
  | has_new_best_individual => exact has_new_best_nbf pop pop2 h
  | add_individual w =>
    injection h with h1
    subst h1
    exact Or.inl rfl
  | reseed_rng entropy =>
    injection h with h1
    subst h1
    exact Or.inl rfl

theorem runOps_nbf {T : Type} (I : DWIndividual T) :
    ∀ (ops : List (DWOp T)) (pop pop2 : DWPopulation T),
      runOps I ops pop = some pop2 →
      nbfStep pop2.new_best_fitness pop.new_best_fitness := by
  intro ops
  induction ops with
  | nil =>
    intro pop pop2 h
    simp [runOps] at h
    exact Or.inl (h ▸ rfl)
  | cons op rest ih =>
    intro pop pop2 h
    unfold runOps at h
    split at h
    · exact Option.noConfusion h
    · next pop1 happ =>
        exact nbfStep_trans (applyOp_nbf I op pop pop1 happ) (ih pop1 pop2 h)

/-- Claim C9 counterexample: the wrapper returned by
`DWIndividualWrapper::new` has cached fitness `f64::MAX`, which is a
finite value and not positive infinity, contradicting the claim that the
sentinel is `+∞`. -/
theorem C9_counterexample :
    (DWIndividualWrapper.new (0 : ℕ)).fitness = f64_MAX ∧ f64_MAX ≠ F64.pos_inf :=
  ⟨rfl, by decide⟩

/-- Claim C9, amended: for every individual, `DWIndividualWrapper::new`
returns a wrapper whose cached fitness is `f64::MAX` (the largest finite
f64), the sentinel for "not yet scored". -/
theorem C9_new_fitness_is_f64_max (T : Type) (ind : T) :
    (DWIndividualWrapper.new ind).fitness = f64_MAX := rfl

/-- Claim C4: `Display` for `DWDeleteMethod` renders the mutate-method
tags `"simple"`/`"only_best"`/`"low_mem"`, which `from_str` rejects, so
the Display/FromStr round-trip fails for every value, while the parse
surface accepted by `from_str` is exactly `"sort_keep"`, `"sort_unique"`,
`"random_best3"`. -/
theorem C4_display_fromstr_mismatch (m : DWDeleteMethod) :
    DWDeleteMethod.from_str (DWDeleteMethod.display m) =
      Except.error (DWError.ParseDWDeleteMethodError (DWDeleteMethod.display m)) ∧
    DWDeleteMethod.from_str ("sort_keep") = Except.ok DWDeleteMethod.SortKeep ∧
    DWDeleteMethod.from_str ("sort_unique") = Except.ok DWDeleteMethod.SortUnique ∧
    DWDeleteMethod.from_str ("random_best3") = Except.ok DWDeleteMethod.RandomBest3 := by
  cases m <;> exact ⟨rfl, rfl, rfl, rfl⟩

/-- Claim C2 counterexample: a fitness function returning NaN is cached
by `calculate_fitness` without any panic or error (the model is total on
this path, mirroring the plain assignment in the source), and the NaN
wrapper is then admitted into a population's collection by
`add_individual`. -/
theorem C2_counterexample :
    exWNan.fitness = F64.nan ∧
    exWNan ∈ (DWPopulation.add_individual exPopMut exWNan).collection := by
  exact ⟨rfl, by decide⟩

/-- Claim C2, amended: `calculate_fitness` performs no NaN check and
`add_individual` admits a NaN-fitness wrapper unconditionally; the
fail-fast on NaN lives only in the wrapper ordering (`Ord::cmp` panics,
i.e. `wrapperCmp` is `none`), which runs when the collection is sorted. -/
theorem C2_nan_admitted (T : Type) (pop : DWPopulation T)
    (w : DWIndividualWrapper T) (h : w.fitness = F64.nan) :
    w ∈ (DWPopulation.add_individual pop w).collection ∧ wrapperCmp w w = none := by
  constructor
  · unfold DWPopulation.add_individual
    exact List.mem_append_right _ (List.mem_singleton.mpr rfl)
  · unfold wrapperCmp
    rw [h]

/-- Witness for C2 at a concrete input. -/
theorem C2_witness :
    exWNan.fitness = F64.nan ∧
    (exWNan ∈ (DWPopulation.add_individual exPopMut exWNan).collection ∧
      wrapperCmp exWNan exWNan = none) :=
  ⟨by decide, C2_nan_admitted ℕ exPopMut exWNan (by decide)⟩

/-- Claim C1 counterexample: on a population with `num_of_mutations = 2`
and two members, one call of `mutate_random_single_clone` grows the
collection from 2 to 4 — more than the claimed "at most one new
candidate". -/
theorem C1_counterexample :
    (DWPopulation.mutate_random_single_clone exIndNat 5 exPopMut).map
        (fun p => p.collection.length) = some 4 ∧
    exPopMut.collection.length = 2 ∧ ¬ (4 ≤ 2 + 1) := by
  exact ⟨by decide, by decide, by decide⟩

/-- Claim C1, amended: whenever `mutate_random_single_clone` completes, it
has appended exactly `num_of_mutations` new candidates (the push sits
inside the `for _ in 0..num_of_mutations` loop), so the collection length
grows by `num_of_mutations`, not by at most one. -/
theorem C1_appends_num_of_mutations (T : Type) (I : DWIndividual T)
    (fuel : ℕ) (pop : DWPopulation T) (n : ℕ)
    (h : (DWPopulation.mutate_random_single_clone I fuel pop).map
      (fun p => p.collection.length) = some n) :
    n = pop.collection.length + pop.num_of_mutations := by
  rcases Option.map_eq_some'.mp h with ⟨pop2, h2, hn⟩
  rw [← hn]
  exact mutateRSCAux_length I fuel pop.num_of_mutations pop pop2 h2

/-- Witness for C1 at a concrete input. -/
theorem C1_witness :
    (DWPopulation.mutate_random_single_clone exIndNat 5 exPopMut).map
        (fun p => p.collection.length) = some 4 ∧
    4 = exPopMut.collection.length + exPopMut.num_of_mutations :=
  ⟨by decide, C1_appends_num_of_mutations ℕ exIndNat 5 exPopMut 4 (by decide)⟩

/-- Claim C3: `DWPopulation::new` hard-codes `max_reset = 100` and never
reads `reset_limit` from the configuration, and `check_reset` has no
`reset_limit > 0` guard; consequently, on a population built from a
configuration with `reset_limit = 0`, the 101st consecutive `check_reset`
call (1 progress call followed by 100 stagnant calls) does invoke
`random_reset` on the wrappers (the fired flag is true), while the first
100 calls do not. -/
theorem C3_reset_fires_despite_zero_reset_limit :
    (∀ (T : Type) (I : DWIndividual T) (init : DWIndividualWrapper T)
      (cfg : DWConfiguration) (entropy : ℕ → ℕ),
        (DWPopulation.new I init cfg entropy).max_reset = 100) ∧
    exCfgZeroReset.reset_limit = 0 ∧
    (runChecks exIndUnit exCandUnit 101 exPopReset).map (fun x => x.2) = some true ∧
    (runChecks exIndUnit exCandUnit 100 exPopReset).map (fun x => x.2) = some false :=
  ⟨fun _ _ _ _ _ => rfl, rfl, by decide, by decide⟩

/-- Claim C7: across every sequence of population operations
(`check_reset`, the three mutate passes, `delete`,
`has_new_best_individual`, `add_individual`, `reseed_rng`) that completes,
`new_best_fitness` never increases: the final value equals the initial one
or is strictly below it in the IEEE order. -/
theorem C7_new_best_fitness_monotone (T : Type) (I : DWIndividual T)
    (ops : List (DWOp T)) (pop : DWPopulation T) (nb2 : F64)
    (h : (runOps I ops pop).map (fun p => p.new_best_fitness) = some nb2) :
    nbfStep nb2 pop.new_best_fitness := by
  rcases Option.map_eq_some'.mp h with ⟨pop2, h2, hn⟩
  rw [← hn]
  exact runOps_nbf I ops pop pop2 h2

/-- Witness for C7 at a concrete input. -/
theorem C7_witness :
    (runOps exIndNat exOpsMono exPopMono).map (fun p => p.new_best_fitness) =
      some (F64.fin 5) ∧
    nbfStep (F64.fin 5) exPopMono.new_best_fitness :=
  ⟨by decide, C7_new_best_fitness_monotone ℕ exIndNat exOpsMono exPopMono
    (F64.fin 5) (by decide)⟩

/-- Claim C8: when the current best fitness differs from `reset_fitness`
(IEEE `==` is false), `check_reset` records the best as the new
`reset_fitness`, clears `reset_counter`, and appends the candidate if and
only if the candidate's fitness is strictly worse (greater) than the
best. -/
theorem C8_check_reset_progress_branch (T : Type) (I : DWIndividual T)
    (pop : DWPopulation T) (cand : DWIndividualWrapper T) (best : F64)
    (hbest : pop.get_best_fitness = some best)
    (heqv : F64.eqv pop.reset_fitness best = false) :
    (DWPopulation.check_reset I cand pop).map
        (fun p => (p.reset_fitness, p.reset_counter, p.collection)) =
      some (best, 0,
        if F64.lt best cand.fitness then pop.collection ++ [cand]
        else pop.collection) := by
  unfold DWPopulation.check_reset checkResetAux
  rw [hbest]
  simp only [heqv, Bool.false_eq_true, if_false]
  split <;> rfl

/-- Witness for C8 at a concrete input. -/
theorem C8_witness :
    exPopMut.get_best_fitness = some (F64.fin 10) ∧
    F64.eqv exPopMut.reset_fitness (F64.fin 10) = false ∧
    (DWPopulation.check_reset exIndNat exW20 exPopMut).map
        (fun p => (p.reset_fitness, p.reset_counter, p.collection)) =
      some (F64.fin 10, 0,
        if F64.lt (F64.fin 10) exW20.fitness then exPopMut.collection ++ [exW20]
        else exPopMut.collection) :=
  ⟨by decide, by decide,
    C8_check_reset_progress_branch ℕ exIndNat exPopMut exW20 (F64.fin 10)
      (by decide) (by decide)⟩

/-- Claim C10: when the stagnation reset fires inside `check_reset`
(best fitness equals `reset_fitness` and the incremented counter reaches
`max_reset`), the incoming candidate is discarded — the new collection is
exactly the old one with every wrapper reset and rescored — while
`reset_counter` becomes 0 and `reset_fitness` is unchanged. -/
theorem C10_stagnation_reset_discards_candidate (T : Type)
    (I : DWIndividual T) (pop : DWPopulation T)
    (cand : DWIndividualWrapper T) (best : F64)
    (hbest : pop.get_best_fitness = some best)
    (heqv : F64.eqv pop.reset_fitness best = true)
    (hcnt : pop.max_reset ≤ pop.reset_counter + 1) :
    (DWPopulation.check_reset I cand pop).map
        (fun p => (p.reset_fitness, p.reset_counter, p.collection)) =
      some (pop.reset_fitness, 0,
        pop.collection.map (fun w =>
          DWIndividualWrapper.calculate_fitness I
            (DWIndividualWrapper.random_reset I w))) := by
  unfold DWPopulation.check_reset checkResetAux
  rw [hbest]
  simp only [heqv, if_true]
  rw [if_pos hcnt]
  rfl

/-- Witness for C10 at a concrete input. -/
theorem C10_witness :
    exPopStag.get_best_fitness = some (F64.fin 10) ∧
    F64.eqv exPopStag.reset_fitness (F64.fin 10) = true ∧
    exPopStag.max_reset ≤ exPopStag.reset_counter + 1 ∧
    (DWPopulation.check_reset exIndNat exW20 exPopStag).map
        (fun p => (p.reset_fitness, p.reset_counter, p.collection)) =
      some (exPopStag.reset_fitness, 0,
        exPopStag.collection.map (fun w =>
          DWIndividualWrapper.calculate_fitness exIndNat
            (DWIndividualWrapper.random_reset exIndNat w))) :=
  ⟨by decide, by decide, by decide,
    C10_stagnation_reset_discards_candidate ℕ exIndNat exPopStag exW20
      (F64.fin 10) (by decide) (by decide) (by decide)⟩

/-- Claim C5 counterexample: with two wrappers tied at the minimum fitness,
`dedup` (triggered inside the `RandomBest3` branch of `delete`) removes one
of the three minimum-fitness wrappers, so that wrapper is no longer present
after the call even though nothing exceeded `max_population_size`. -/
theorem C5_counterexample :
    exV2 ∈ exPopBest3.collection ∧
    exV2 ∈ (List.insertionSort wrapperLe exPopBest3.collection).take 3 ∧
    (DWPopulation.delete 4 exPopBest3).map (fun p => p.collection) =
      some [exV1, exV3, exV4] ∧
    exV2 ∉ [exV1, exV3, exV4] := by
  exact ⟨by decide, by decide, by decide, by decide⟩

/-- Claim C5, amended: under `RandomBest3`, whenever `delete()` completes,
for each of the first three wrappers of the sorted collection a wrapper
with the same fitness is still present afterwards (the swap-remove loop
never touches indices 0-2; `dedup` may collapse equal-fitness wrappers to
a single representative, so only fitness-level presence survives). -/
theorem C5_top3_fitness_preserved (T : Type) (fuel : ℕ)
    (pop : DWPopulation T) (sorted : List (DWIndividualWrapper T))
    (w : DWIndividualWrapper T) (coll2 : List (DWIndividualWrapper T))
    (hmeth : pop.delete_method = DWDeleteMethod.RandomBest3)
    (hsort : sortCollection pop.collection = some sorted)
    (hw : w ∈ sorted.take 3)
    (hdel : (DWPopulation.delete fuel pop).map (fun p => p.collection) = some coll2) :
    DWIndividualWrapper.get_fitness w ∈ coll2.map DWIndividualWrapper.get_fitness := by
  rcases Option.map_eq_some'.mp hdel with ⟨pop2, hd, hc⟩
  subst hc
  unfold DWPopulation.delete at hd
  simp only [hmeth, hsort] at hd
  split at hd
  · exact Option.noConfusion hd
  · rename_i l2 r2 hloop
    injection hd with h1
    subst h1
    show DWIndividualWrapper.get_fitness w ∈ l2.map DWIndividualWrapper.get_fitness
    rcases sorted with _ | ⟨a, rest⟩
    · simp at hw
    · rcases dedupFrom_take_rep rest a w 3 hw with ⟨u, hu, hufit⟩
      have hspec := randomBest3LoopAux_spec pop.max_population_size fuel
        (dedupAdj (a :: rest)) l2 pop.rng r2 hloop
      have hu2 : u ∈ l2.take 3 := by
        rw [hspec.1]
        exact hu
      have hu3 : u ∈ l2 := List.mem_of_mem_take hu2
      have hfit : DWIndividualWrapper.get_fitness u = DWIndividualWrapper.get_fitness w := hufit
      rw [← hfit]
      exact List.mem_map_of_mem DWIndividualWrapper.get_fitness hu3

/-- Witness for C5 at a concrete input. -/
theorem C5_witness :
    exPopBest3.delete_method = DWDeleteMethod.RandomBest3 ∧
    sortCollection exPopBest3.collection = some [exV1, exV2, exV3, exV4] ∧
    exV2 ∈ [exV1, exV2, exV3, exV4].take 3 ∧
    (DWPopulation.delete 4 exPopBest3).map (fun p => p.collection) =
      some [exV1, exV3, exV4] ∧
    DWIndividualWrapper.get_fitness exV2 ∈
      [exV1, exV3, exV4].map DWIndividualWrapper.get_fitness :=
  ⟨by decide, by decide, by decide, by decide,
    C5_top3_fitness_preserved ℕ 4 exPopBest3 [exV1, exV2, exV3, exV4] exV2
      [exV1, exV3, exV4] (by decide) (by decide) (by decide) (by decide)⟩

/-- Claim C6 counterexample: with `max_population_size = 0` (the
configuration record does not forbid it) and a singleton collection,
`delete` under `SortKeep` truncates the collection to size 0, violating
the claimed lower bound of 1. -/
theorem C6_counterexample :
    exPopZeroMax.collection.length = 1 ∧
    (DWPopulation.delete 3 exPopZeroMax).map (fun p => p.collection.length) =
      some 0 ∧
    ¬ (1 ≤ 0) := by
  exact ⟨by decide, by decide, by decide⟩

/-- Claim C6, amended: for every population with a non-empty collection
and `max_population_size ≥ 1` (the spec's configuration surface requires
`max_population_size ≥ 1`), whenever `delete()` completes — under any of
the three strategies — the resulting collection size `n` satisfies
`1 ≤ n ≤ max_population_size`. -/
theorem C6_size_bounds (T : Type) (fuel : ℕ) (pop : DWPopulation T) (n : ℕ)
    (hne : pop.collection ≠ []) (hmax : 1 ≤ pop.max_population_size)
    (h : (DWPopulation.delete fuel pop).map (fun p => p.collection.length) = some n) :
    1 ≤ n ∧ n ≤ pop.max_population_size := by
  rcases Option.map_eq_some'.mp h with ⟨pop2, hdel, hn⟩
  subst hn
  have hpos : 0 < pop.collection.length := List.length_pos.mpr hne
  unfold DWPopulation.delete at hdel
  split at hdel
  · -- SortKeep
    split at hdel
    · exact Option.noConfusion hdel
    · rename_i sorted hsort
      injection hdel with h1
      subst h1
      have hlen := (sortCollection_perm hsort).length_eq
      show 1 ≤ (sorted.take pop.max_population_size).length ∧
        (sorted.take pop.max_population_size).length ≤ pop.max_population_size
      rw [List.length_take]
      omega
  · -- SortUnique
    split at hdel
    · exact Option.noConfusion hdel
    · rename_i sorted hsort
      injection hdel with h1
      subst h1
      have hlen := (sortCollection_perm hsort).length_eq
      have hd : 0 < (dedupAdj sorted).length := by
        rcases sorted with _ | ⟨a, rest⟩
        · rw [← hlen] at hpos
          simp at hpos
        · simp [dedupAdj]
      show 1 ≤ ((dedupAdj sorted).take pop.max_population_size).length ∧
        ((dedupAdj sorted).take pop.max_population_size).length ≤ pop.max_population_size
      rw [List.length_take]
      omega
  · -- RandomBest3
    split at hdel
    · exact Option.noConfusion hdel
    · rename_i sorted hsort
      split at hdel
      · exact Option.noConfusion hdel
      · rename_i l2 r2 hloop
        injection hdel with h1
        subst h1
        have hlen := (sortCollection_perm hsort).length_eq
        have hd : 0 < (dedupAdj sorted).length := by
          rcases sorted with _ | ⟨a, rest⟩
          · rw [← hlen] at hpos
            simp at hpos
          · simp [dedupAdj]
        have hspec := (randomBest3LoopAux_spec pop.max_population_size fuel
          (dedupAdj sorted) l2 pop.rng r2 hloop).2
        show 1 ≤ l2.length ∧ l2.length ≤ pop.max_population_size
        omega

/-- Witness for C6 at a concrete input. -/
theorem C6_witness :
    exPopBest3.collection ≠ [] ∧
    1 ≤ exPopBest3.max_population_size ∧
    (DWPopulation.delete 4 exPopBest3).map (fun p => p.collection.length) =
      some 3 ∧
    (1 ≤ 3 ∧ 3 ≤ exPopBest3.max_population_size) :=
  ⟨by decide, by decide, by decide,
    C6_size_bounds ℕ 4 exPopBest3 3 (by decide) (by decide) (by decide)⟩
